import Mathlib

/-!
Verification of the juce_libvlc media-player adapter.

Shallow embedding of `VLCMediaPlayer` (src/unnamed/part_002, the active
variant of src/juce_media/VLCMediaPlayer.cpp): the audio ring buffer, the
decoder callbacks, the real-time audio pull path, seeking, and the video
format/display path.

Modelling conventions:
* audio samples are `float` in the source; the adapter never does arithmetic
  on them (it only copies them and writes the literal `0.0f`), so they are
  modelled as rationals;
* `double` scalars (sample rate, seconds, duration) are modelled as
  rationals; `static_cast<int64_t>` on a double truncates toward zero, which
  `ratTrunc` reproduces exactly;
* raw pointers that may be null are modelled as `Option`; a C++ dereference
  of a null pointer is modelled as the explicit outcome `CbResult.nullDeref`;
* the `int` cursors of the ring buffer are modelled as `Nat`: the source only
  ever stores non-negative values into them (0 or a `%`-reduced sum of
  non-negative values).
-/

namespace JuceLibVLC

/-- `VLCMediaPlayer::AudioBuffer` (part_002 lines 18-70): fixed-capacity
ring buffer, per-channel sample storage plus write/read cursors and the
count of unread samples. -/
structure AudioBuffer where
  numChannels : Nat
  numSamples : Nat
  data : List (List ℚ)
  writePosition : Nat
  readPosition : Nat
  availableSamples : Nat
deriving DecidableEq

/-- `AudioBuffer::clear` (part_002 lines 59-70): resets the three cursors to
zero and zero-fills each channel's `numSamples` samples. -/
def AudioBuffer.clear (b : AudioBuffer) : AudioBuffer :=
  { b with
    writePosition := 0
    readPosition := 0
    availableSamples := 0
    data := b.data.map (fun _ => List.replicate b.numSamples (0 : ℚ)) }

/-- The per-channel write loop of `VLCMediaPlayer::processAudioData`
(part_002 lines 983-988): for `i` in `[0, cnt)` it stores `vals i` at index
`(writePos + i) % cap` of the channel. -/
def writeChannel (ch : List ℚ) (cap writePos : Nat) (vals : Nat → ℚ) : Nat → List ℚ
  | 0 => ch
  | cnt + 1 => (writeChannel ch cap writePos vals cnt).set ((writePos + cnt) % cap) (vals cnt)

/-- `VLCMediaPlayer::processAudioData` (part_002 lines 968-993), the ring
buffer producer. `audioData` is the interleaved stereo block delivered by
the decoder and `size` its byte count; the source derives the frame count as
`size / (sizeof(float) * 2)`, i.e. `size / 8`, deinterleaves left samples
from the even and right samples from the odd positions, and writes at most
`capacity - available` frames, dropping the excess. The null-ring-buffer
guard of the source lives one level up (`playerProcessAudioData`), where the
buffer is an `Option`. -/
def processAudioData (b : AudioBuffer) (audioData : List ℚ) (size : Nat) : AudioBuffer :=
  if size = 0 then b
  else
    let numSamples := size / 8
    let writePos := b.writePosition
    let availableSpace := b.numSamples - b.availableSamples
    let samplesToWrite := min numSamples availableSpace
    if 0 < samplesToWrite then
      { b with
        data :=
          match b.data with
          | d0 :: d1 :: rest =>
              writeChannel d0 b.numSamples writePos (fun i => audioData.getD (2 * i) 0) samplesToWrite
                :: writeChannel d1 b.numSamples writePos (fun i => audioData.getD (2 * i + 1) 0) samplesToWrite
                :: rest
          | other => other
        writePosition := (writePos + samplesToWrite) % b.numSamples
        availableSamples := b.availableSamples + samplesToWrite }
    else b

/-- The number of frames `processAudioData` actually stores: `0` on the
`size == 0` early return, otherwise `min (size / 8) (capacity - available)`
(the `samplesToWrite` of part_002 line 979). -/
def writtenCount (b : AudioBuffer) (size : Nat) : Nat :=
  if size = 0 then 0 else min (size / 8) (b.numSamples - b.availableSamples)

/-- The cursor update the consumer performs on the ring buffer in
`VLCMediaPlayer::audioDeviceIOCallback` (part_002 lines 553, 571-573):
reading `min numSamples available` samples advances `readPosition` modulo
the capacity and decrements `availableSamples`; reading zero samples leaves
the buffer untouched. -/
def AudioBuffer.consume (b : AudioBuffer) (numSamples : Nat) : AudioBuffer :=
  let samplesToRead := min numSamples b.availableSamples
  if 0 < samplesToRead then
    { b with
      readPosition := (b.readPosition + samplesToRead) % b.numSamples
      availableSamples := b.availableSamples - samplesToRead }
  else b

/-- The per-channel read loop of `audioDeviceIOCallback` (part_002 lines
564-567): `dest[i] = src[(readPos + i) % cap]` for `i` in `[0, cnt)`. -/
def readChannel (src : List ℚ) (cap readPos cnt : Nat) : List ℚ :=
  (List.range cnt).map (fun i => src.getD ((readPos + i) % cap) 0)

/-- `FloatVectorOperations::clear (outputChannelData[channel], numSamples)`
(part_002 line 545): zeroes the first `numSamples` entries of a channel. -/
def clearChannel (ch : List ℚ) (numSamples : Nat) : List ℚ :=
  List.replicate numSamples (0 : ℚ) ++ ch.drop numSamples

/-- The channel loop of `audioDeviceIOCallback` (part_002 lines 559-568):
the first `numCh` output channels receive the read prefix (the tail of each
channel beyond `cnt` keeps its cleared contents), channels past `numCh` are
left as cleared. -/
def writeOut : List (List ℚ) → List (List ℚ) → Nat → Nat → Nat → Nat → List (List ℚ)
  | outs, _, 0, _, _, _ => outs
  | [], _, _, _, _, _ => []
  | o :: outs, s :: srcs, numCh + 1, cap, readPos, cnt =>
      (readChannel s cap readPos cnt ++ o.drop cnt) :: writeOut outs srcs numCh cap readPos cnt
  | o :: outs, [], _ + 1, _, _, _ => o :: outs

/-- The frame-store image the display path writes
(`juce::Image(ARGB, width, height)` with its `BitmapData`): modelled with
`pixelStride = 4` and `lineStride = width * 4`, i.e. 4 bytes per pixel and
no row padding, `pixels` being the flat byte list. -/
structure VideoFrame where
  width : Int
  height : Int
  pixels : List Nat
deriving DecidableEq

/-- The fields of `VLCMediaPlayer` the claims touch (VLCMediaPlayer.h lines
111-139).  `mediaPlayerOpen` / `currentMediaOpen` model the null-ness of the
`libvlc_media_player_t*` / `libvlc_media_t*` handles; `videoFrameBuffer`
models the `unique_ptr<uint8_t[]>` frame buffer as an optional byte list. -/
structure PlayerState where
  mediaPlayerOpen : Bool
  currentMediaOpen : Bool
  audioRingBuffer : Option AudioBuffer
  currentSampleRate : ℚ
  totalAudioSamples : Int
  currentAudioSample : Int
  videoWidth : Int
  videoHeight : Int
  hasVideoStream : Bool
  hasAudioStream : Bool
  isCurrentlyPlaying : Bool
  mediaDuration : ℚ
  seekGeneration : Int
  videoFrameBuffer : Option (List Nat)
  videoFrameBufferSize : Nat
  currentVideoFrame : Option VideoFrame
deriving DecidableEq

/-- `VLCMediaPlayer::isPlaying` (part_002 lines 412-415). -/
def isPlaying (s : PlayerState) : Bool := s.isCurrentlyPlaying

/-- `VLCMediaPlayer::getTotalSamples` (part_002 lines 482-485). -/
def getTotalSamples (s : PlayerState) : Int := s.totalAudioSamples

/-- `VLCMediaPlayer::getCurrentSample` (part_002 lines 487-490). -/
def getCurrentSample (s : PlayerState) : Int := s.currentAudioSample

/-- `VLCMediaPlayer::getTotalDuration` (part_002 lines 492-495). -/
def getTotalDuration (s : PlayerState) : ℚ := s.mediaDuration

/-- `VLCMediaPlayer::hasVideo` (part_002 lines 505-508). -/
def hasVideo (s : PlayerState) : Bool := s.hasVideoStream

/-- `VLCMediaPlayer::hasAudio` (part_002 lines 510-513). -/
def hasAudio (s : PlayerState) : Bool := s.hasAudioStream

/-- `VLCMediaPlayer::audioDeviceIOCallback` (part_002 lines 533-578): the
real-time pull path.  All output channels are cleared first; then, only when
an audio stream is present and the playing flag is set, up to
`min numSamples available` samples are copied from the ring buffer into the
first `min (output channels) (buffer channels)` channels, the buffer cursors
advance, and `currentAudioSample` grows by the count actually read.  Returns
the updated player state and the output block. -/
def audioDeviceIOCallback (s : PlayerState) (output : List (List ℚ)) (numSamples : Nat) :
    PlayerState × List (List ℚ) :=
  let cleared := output.map (fun ch => clearChannel ch numSamples)
  match s.audioRingBuffer with
  | none => (s, cleared)
  | some b =>
    if s.hasAudioStream ∧ s.isCurrentlyPlaying then
      let numChannels := min cleared.length b.numChannels
      let samplesToRead := min numSamples b.availableSamples
      if 0 < samplesToRead then
        let outs := writeOut cleared b.data numChannels b.numSamples b.readPosition samplesToRead
        ({ s with
            audioRingBuffer := some (b.consume numSamples)
            currentAudioSample := s.currentAudioSample + samplesToRead }, outs)
      else (s, cleared)
    else (s, cleared)

/-- `static_cast<int64_t>` applied to a `double`: truncation toward zero
(the floor for non-negative values, minus the floor of the negation
otherwise). -/
def ratTrunc (q : ℚ) : Int := if 0 ≤ q then ⌊q⌋ else -⌊-q⌋

/-- Outcome of one seek call: the player state afterwards, the boolean
return value, and the millisecond argument passed to
`libvlc_media_player_set_time` (`none` when the engine was not called). -/
structure SeekResult where
  state : PlayerState
  returned : Bool
  engineSetTimeMs : Option Int
deriving DecidableEq

/-- `VLCMediaPlayer::seekToTime` (part_002 lines 431-456): fails when either
handle is null; otherwise increments the seek generation, converts seconds
to truncated milliseconds, issues the engine time-set (`result` is the
hard-coded `0`), clears the ring buffer and returns `true`.  The `SeekMode`
argument is ignored by the source, so it is not modelled. -/
def seekToTime (s : PlayerState) (timeInSeconds : ℚ) : SeekResult :=
  if s.mediaPlayerOpen = true ∧ s.currentMediaOpen = true then
    let s1 := { s with seekGeneration := s.seekGeneration + 1 }
    let timeInMs := ratTrunc (timeInSeconds * 1000)
    let s2 := { s1 with audioRingBuffer := s1.audioRingBuffer.map AudioBuffer.clear }
    ⟨s2, true, some timeInMs⟩
  else ⟨s, false, none⟩

/-- `VLCMediaPlayer::seekToSample` (part_002 lines 418-429): fails when the
player handle is null or no audio stream is present or the sample rate is
non-positive; otherwise delegates to `seekToTime (sampleIndex / rate)`. -/
def seekToSample (s : PlayerState) (sampleIndex : Int) : SeekResult :=
  if s.mediaPlayerOpen = true ∧ s.hasAudioStream = true then
    if s.currentSampleRate ≤ 0 then ⟨s, false, none⟩
    else seekToTime s ((sampleIndex : ℚ) / s.currentSampleRate)
  else ⟨s, false, none⟩

/-- `VLCMediaPlayer::stop` (part_002 lines 399-410): with a non-null player
handle it issues the engine stop, clears the playing flag, resets the
current-sample counter and clears the ring buffer; otherwise a no-op. -/
def stop (s : PlayerState) : PlayerState :=
  if s.mediaPlayerOpen then
    { s with
      isCurrentlyPlaying := false
      currentAudioSample := 0
      audioRingBuffer := s.audioRingBuffer.map AudioBuffer.clear }
  else s

/-- `VLCMediaPlayer::close` (part_002 lines 345-371): stops, detaches and
releases the media handle, resets every derived metadata field to its
unknown/zero sentinel and clears the ring buffer. -/
def close (s : PlayerState) : PlayerState :=
  let s1 := stop s
  { s1 with
    currentMediaOpen := false
    hasVideoStream := false
    hasAudioStream := false
    mediaDuration := -1
    totalAudioSamples := -1
    currentAudioSample := 0
    videoWidth := 0
    videoHeight := 0
    audioRingBuffer := s1.audioRingBuffer.map AudioBuffer.clear }

/-- What one decoder-callback invocation does to the player: `noop` when an
explicit null check made it return early, `ran s` when the body executed on
a valid player (yielding state `s`), `nullDeref` when the source dereferences
a null pointer (undefined behaviour in C++). -/
inductive CbResult where
  | noop
  | ran (s : PlayerState)
  | nullDeref
deriving DecidableEq

/-- `processAudioData` at player level (part_002 lines 968-971): the
null-ring-buffer and zero-size guards return without touching the state. -/
def playerProcessAudioData (s : PlayerState) (audioData : List ℚ) (size : Nat) : PlayerState :=
  match s.audioRingBuffer with
  | none => s
  | some b =>
      if size = 0 then s
      else { s with audioRingBuffer := some (processAudioData b audioData size) }

/-- `VLCMediaPlayer::audioLockCallback` (part_002 lines 619-637):
null-checks `data` and `pcm_buffer`, then hands out a thread-local scratch
buffer without touching the player state. -/
def audioLockCallback (data : Option PlayerState) (pcmBufferNull : Bool) : CbResult :=
  match data, pcmBufferNull with
  | none, _ => .noop
  | _, true => .noop
  | some player, false => .ran player

/-- `VLCMediaPlayer::audioUnlockCallback` (part_002 lines 639-652):
null-checks `data`, then feeds the filled block to `processAudioData`. -/
def audioUnlockCallback (data : Option PlayerState) (pcm : List ℚ) (size : Nat) : CbResult :=
  match data with
  | none => .noop
  | some player => .ran (playerProcessAudioData player pcm size)

/-- `VLCMediaPlayer::audioFlushCallback` (part_002 lines 670-675): the source
casts `data` and immediately reads `player->audioRingBuffer` with no null
check on `data`, so a null context is dereferenced; with a valid context it
clears the ring buffer (when the buffer pointer is non-null). -/
def audioFlushCallback (data : Option PlayerState) : CbResult :=
  match data with
  | none => .nullDeref
  | some player =>
      .ran { player with audioRingBuffer := player.audioRingBuffer.map AudioBuffer.clear }

/-- `VLCMediaPlayer::videoLockCallback` (part_002 lines 684-701):
null-checks `data` and `planes`, then exposes the frame buffer pointer
without modifying the player state. -/
def videoLockCallback (data : Option PlayerState) (planesNull : Bool) : CbResult :=
  match data, planesNull with
  | none, _ => .noop
  | _, true => .noop
  | some player, false => .ran player

/-- `VLCMediaPlayer::videoUnlockCallback` (part_002 lines 703-714):
null-checks `data`, `picture` and `planes`; the body is empty. -/
def videoUnlockCallback (data : Option PlayerState) (pictureNull planesNull : Bool) : CbResult :=
  match data, pictureNull, planesNull with
  | none, _, _ => .noop
  | _, true, _ => .noop
  | _, _, true => .noop
  | some player, false, false => .ran player

/-- `updateVideoSize` (part_002 lines 1014-1027): publishes the dimensions
(the asynchronous UI resize is outside the model). -/
def updateVideoSize (s : PlayerState) (width height : Nat) : PlayerState :=
  { s with videoWidth := (width : Int), videoHeight := (height : Int) }

/-- The RGBA→ARGB repack of `updateVideoFrameFromBuffer` (part_002 lines
1060-1078).  Pixel `p` ranges over the nested `y`/`x` loops in order
(`p = y * width + x`); for each pixel the four source bytes at
`srcIndex = p * 4` are emitted in the order B, G, R, A. -/
def convertFrame (src : List Nat) (width height : Nat) : List Nat :=
  (List.range (height * width)).flatMap (fun p =>
    let srcIndex := p * 4
    [src.getD (srcIndex + 2) 0, src.getD (srcIndex + 1) 0,
     src.getD (srcIndex + 0) 0, src.getD (srcIndex + 3) 0])

/-- `VLCMediaPlayer::updateVideoFrameFromBuffer` (part_002 lines 1029-1079):
guarded on a present, non-empty frame buffer and positive dimensions, it
replaces the current frame-store image with the byte-swapped conversion of
the frame buffer. -/
def updateVideoFrameFromBuffer (s : PlayerState) : PlayerState :=
  match s.videoFrameBuffer with
  | none => s
  | some srcData =>
      if s.videoFrameBufferSize = 0 then s
      else if s.videoWidth ≤ 0 ∨ s.videoHeight ≤ 0 then s
      else
        { s with
          currentVideoFrame :=
            some ⟨s.videoWidth, s.videoHeight,
                  convertFrame srcData s.videoWidth.toNat s.videoHeight.toNat⟩ }

/-- `VLCMediaPlayer::videoDisplayCallback` (part_002 lines 716-737):
null-checks `data` and `picture`, then converts the frame buffer into the
frame store. -/
def videoDisplayCallback (data : Option PlayerState) (pictureNull : Bool) : CbResult :=
  match data, pictureNull with
  | none, _ => .noop
  | _, true => .noop
  | some player, false => .ran (updateVideoFrameFromBuffer player)

/-- Result of `videoFormatCallback`: the unsigned return value, the values
written through the `pitches` and `lines` out-parameters, and the updated
player when the body ran. -/
structure VideoFormatResult where
  returned : Nat
  pitches : Option Nat
  lines : Option Nat
  state : Option PlayerState
deriving DecidableEq

/-- `VLCMediaPlayer::videoFormatCallback` (part_002 lines 739-771): `data`
is a `void**`, so both the outer pointer and `*data` are null-checked
(returning failure 0); with a valid context it fixes the RV32 chroma,
publishes width/height, reports `pitches = width * 4` and `lines = height`,
allocates a zero-initialised `width * height * 4`-byte frame buffer and
returns 1. -/
def videoFormatCallback (dataOuterNull : Bool) (data : Option PlayerState)
    (width height : Nat) : VideoFormatResult :=
  if dataOuterNull then ⟨0, none, none, none⟩
  else
    match data with
    | none => ⟨0, none, none, none⟩
    | some player =>
        let p1 := updateVideoSize player width height
        let bufferSize := width * height * 4
        let p2 := { p1 with
                    videoFrameBufferSize := bufferSize
                    videoFrameBuffer := some (List.replicate bufferSize 0) }
        ⟨1, some (width * 4), some height, some p2⟩

/-- Models the engine writing a decoded frame (the bytes `src`) through the
pointer handed out by `videoLockCallback` into the frame buffer. -/
def engineFillsFrameBuffer (s : PlayerState) (src : List Nat) : PlayerState :=
  { s with videoFrameBuffer := s.videoFrameBuffer.map (fun _ => src) }

/-- A cleared two-channel ring buffer of capacity `cap` — the state
`AudioBuffer (2, cap)` is in right after construction (the constructor's
`resize` ends in `clear`, part_002 lines 18-57). -/
def emptyBuffer (cap : Nat) : AudioBuffer :=
  { numChannels := 2
    numSamples := cap
    data := [List.replicate cap (0 : ℚ), List.replicate cap (0 : ℚ)]
    writePosition := 0
    readPosition := 0
    availableSamples := 0 }

/-- The ring buffer the constructor allocates (part_002 line 78):
`AudioBuffer (2, 96000)`, i.e. 2 seconds of stereo at 48 kHz. -/
def initAudioBuffer : AudioBuffer := emptyBuffer 96000

/-- The ring-buffer states reachable from the freshly constructed buffer by
any interleaving of producer writes (`processAudioData`), consumer reads
(`AudioBuffer.consume`) and `clear` calls. -/
inductive ReachableBuffer : AudioBuffer → Prop where
  | init : ReachableBuffer initAudioBuffer
  | write (b : AudioBuffer) (audioData : List ℚ) (size : Nat) :
      ReachableBuffer b → ReachableBuffer (processAudioData b audioData size)
  | read (b : AudioBuffer) (numSamples : Nat) :
      ReachableBuffer b → ReachableBuffer (b.consume numSamples)
  | clearStep (b : AudioBuffer) : ReachableBuffer b → ReachableBuffer b.clear

/-- Well-formedness of a stereo ring-buffer state: positive capacity, the
unread count within `[0, capacity]`, the read cursor in range, the write
cursor determined by read cursor plus unread count (mod capacity), and two
channels of exactly `capacity` samples. -/
def WfBuf (b : AudioBuffer) : Prop :=
  0 < b.numSamples ∧
  b.availableSamples ≤ b.numSamples ∧
  b.readPosition < b.numSamples ∧
  b.writePosition = (b.readPosition + b.availableSamples) % b.numSamples ∧
  b.numChannels = 2 ∧
  b.data.length = 2 ∧
  ∀ ch ∈ b.data, ch.length = b.numSamples

instance (b : AudioBuffer) : Decidable (WfBuf b) := by
  unfold WfBuf
  infer_instance

/-- The sample stored on channel `c` at index `i` (default 0). -/
def sampleAt (b : AudioBuffer) (c i : Nat) : ℚ := (b.data.getD c []).getD i 0

/-- The buffer after the producer fills the freshly constructed ring buffer
completely: one 768000-byte (96000-frame) decoded block. -/
def fullBuffer : AudioBuffer := processAudioData initAudioBuffer [] 768000

/-- The player-state field values right after construction with a
successfully initialised engine: the defaults of VLCMediaPlayer.h lines
111-139 plus the ring buffer allocated at part_002 line 78. -/
def freshPlayer : PlayerState :=
  { mediaPlayerOpen := true
    currentMediaOpen := false
    audioRingBuffer := some initAudioBuffer
    currentSampleRate := 44100
    totalAudioSamples := -1
    currentAudioSample := 0
    videoWidth := 0
    videoHeight := 0
    hasVideoStream := false
    hasAudioStream := false
    isCurrentlyPlaying := false
    mediaDuration := -1
    seekGeneration := 0
    videoFrameBuffer := none
    videoFrameBufferSize := 0
    currentVideoFrame := none }

/-- A small well-formed stereo ring-buffer state used to exercise the
theorems on concrete inputs: capacity 4, one unread sample at index 1. -/
def testBuffer : AudioBuffer :=
  { numChannels := 2
    numSamples := 4
    data := [[10, 11, 12, 13], [20, 21, 22, 23]]
    writePosition := 2
    readPosition := 1
    availableSamples := 1 }

/-- A playing player whose ring buffer is `b` and whose media has an audio
stream. -/
def playerWithBuffer (b : AudioBuffer) : PlayerState :=
  { freshPlayer with
    currentMediaOpen := true
    hasAudioStream := true
    isCurrentlyPlaying := true
    audioRingBuffer := some b }

/-- A player with an open media that has no audio stream (a video-only
file): `open()` succeeded and `updateMediaInfo` found no audio track. -/
def videoOnlyPlayer : PlayerState :=
  { freshPlayer with currentMediaOpen := true, hasAudioStream := false }

/-- A player with an open media (both handles non-null). -/
def openPlayer : PlayerState :=
  { freshPlayer with currentMediaOpen := true }

/-- A device output block: `channels` channels of `n` zeroed samples. -/
def zeroBlock (channels n : Nat) : List (List ℚ) :=
  List.replicate channels (List.replicate n (0 : ℚ))

/-- One side of an interleaved stereo block, in delivery order: entry `i` is
`xs[2*i + offset]` (offset 0 = left, offset 1 = right), for `i < n`. -/
def interleavedChannel (xs : List ℚ) (offset n : Nat) : List ℚ :=
  (List.range n).map (fun i => xs.getD (2 * i + offset) 0)

/-! ### Helper lemmas -/

lemma getD_set_eq (l : List ℚ) (m : Nat) (a : ℚ) (h : m < l.length) :
    (l.set m a).getD m 0 = a := by
  simp [List.getD_eq_getElem?_getD, List.getElem?_set_self, h]

lemma getD_set_ne (l : List ℚ) (m n : Nat) (a : ℚ) (h : m ≠ n) :
    (l.set m a).getD n 0 = l.getD n 0 := by
  simp [List.getD_eq_getElem?_getD, List.getElem?_set_ne, h]

lemma getD_range_map (f : Nat → ℚ) (n i : Nat) (h : i < n) :
    ((List.range n).map f).getD i 0 = f i := by
  simp [List.getD_eq_getElem?_getD, List.getElem?_map, List.getElem?_range, h]

lemma writeChannel_length (ch : List ℚ) (cap wp : Nat) (vals : Nat → ℚ) :
    ∀ cnt, (writeChannel ch cap wp vals cnt).length = ch.length := by
  intro cnt
  induction cnt with
  | zero => rfl
  | succ k ih => simp [writeChannel, ih]

/-- `(wp + i) % cap` is injective on `i < cap`. -/
lemma mod_index_injective {cap wp i j : Nat} (hi : i < cap) (hj : j < cap)
    (h : (wp + i) % cap = (wp + j) % cap) : i = j := by
  have hmod : i % cap = j % cap := Nat.ModEq.add_left_cancel' wp h
  rwa [Nat.mod_eq_of_lt hi, Nat.mod_eq_of_lt hj] at hmod

lemma writeChannel_getD_written (ch : List ℚ) (cap wp : Nat) (vals : Nat → ℚ)
    (hlen : ch.length = cap) :
    ∀ cnt, cnt ≤ cap → ∀ i < cnt,
      (writeChannel ch cap wp vals cnt).getD ((wp + i) % cap) 0 = vals i := by
  intro cnt
  induction cnt with
  | zero => omega
  | succ k ih =>
    intro hcnt i hi
    have hcap : 0 < cap := by omega
    rcases Nat.lt_succ_iff_lt_or_eq.mp hi with hik | hik
    · have hne : (wp + k) % cap ≠ (wp + i) % cap := by
        intro hciq
        have := mod_index_injective (show k < cap by omega) (show i < cap by omega) hciq
        omega
      rw [writeChannel, getD_set_ne _ _ _ _ hne]
      exact ih (by omega) i hik
    · subst hik
      rw [writeChannel, getD_set_eq]
      rw [writeChannel_length, hlen]
      exact Nat.mod_lt _ hcap

lemma writeChannel_getD_outside (ch : List ℚ) (cap wp : Nat) (vals : Nat → ℚ) :
    ∀ cnt n, (∀ i < cnt, n ≠ (wp + i) % cap) →
      (writeChannel ch cap wp vals cnt).getD n 0 = ch.getD n 0 := by
  intro cnt
  induction cnt with
  | zero => intro n _; rfl
  | succ k ih =>
    intro n hn
    rw [writeChannel, getD_set_ne _ _ _ _ (fun h => hn k (by omega) h.symm)]
    exact ih n (fun i hi => hn i (by omega))

/-- Characterisation of `processAudioData` on a two-channel buffer: it
writes `writtenCount b size` deinterleaved frames at the write cursor and
advances the cursor and the unread count by that amount. -/
lemma processAudioData_eq (b : AudioBuffer) (xs : List ℚ) (size : Nat)
    (d0 d1 : List ℚ) (hdata : b.data = [d0, d1])
    (hwp : b.writePosition < b.numSamples) :
    processAudioData b xs size =
      { b with
        data := [writeChannel d0 b.numSamples b.writePosition
                    (fun i => xs.getD (2 * i) 0) (writtenCount b size),
                 writeChannel d1 b.numSamples b.writePosition
                    (fun i => xs.getD (2 * i + 1) 0) (writtenCount b size)]
        writePosition := (b.writePosition + writtenCount b size) % b.numSamples
        availableSamples := b.availableSamples + writtenCount b size } := by
  obtain ⟨nc, ns, dt, wp, rp, av⟩ := b
  dsimp only at hdata hwp ⊢
  subst hdata
  unfold processAudioData writtenCount
  dsimp only
  by_cases hsz : size = 0
  · simp [hsz, writeChannel, Nat.mod_eq_of_lt hwp]
  · simp only [hsz, if_false, reduceIte]
    by_cases hpos : 0 < min (size / 8) (ns - av)
    · simp [hpos]
    · have hw0 : min (size / 8) (ns - av) = 0 := by omega
      simp [hpos, hw0, writeChannel, Nat.mod_eq_of_lt hwp]

/-- Characterisation of `AudioBuffer.consume`. -/
lemma consume_eq (b : AudioBuffer) (n : Nat)
    (hrp : b.readPosition < b.numSamples) :
    b.consume n =
      { b with
        readPosition := (b.readPosition + min n b.availableSamples) % b.numSamples
        availableSamples := b.availableSamples - min n b.availableSamples } := by
  obtain ⟨nc, ns, dt, wp, rp, av⟩ := b
  dsimp only at hrp ⊢
  unfold AudioBuffer.consume
  dsimp only
  by_cases hpos : 0 < min n av
  · simp [hpos]
  · have h0 : min n av = 0 := by omega
    simp [hpos, h0, Nat.mod_eq_of_lt hrp]

lemma writtenCount_le (b : AudioBuffer) (size : Nat) :
    writtenCount b size ≤ b.numSamples - b.availableSamples := by
  unfold writtenCount
  split <;> omega

lemma wfBuf_writePos_lt {b : AudioBuffer} (hb : WfBuf b) :
    b.writePosition < b.numSamples := by
  obtain ⟨hN, _, _, hwpEq, _⟩ := hb
  rw [hwpEq]
  exact Nat.mod_lt _ hN

lemma wfBuf_write {b : AudioBuffer} (hb : WfBuf b) (xs : List ℚ) (size : Nat) :
    WfBuf (processAudioData b xs size) := by
  have hwp := wfBuf_writePos_lt hb
  obtain ⟨hN, hav, hrp, hwpEq, hnc, hlen2, hchlen⟩ := hb
  obtain ⟨d0, d1, hdata⟩ := List.length_eq_two.mp hlen2
  have h0 := hchlen d0 (by rw [hdata]; simp)
  have h1 := hchlen d1 (by rw [hdata]; simp)
  have hwle := writtenCount_le b size
  rw [processAudioData_eq b xs size d0 d1 hdata hwp]
  unfold WfBuf
  dsimp only
  refine ⟨hN, by omega, hrp, ?_, hnc, rfl, ?_⟩
  · rw [hwpEq, Nat.mod_add_mod, ← Nat.add_assoc]
  · intro ch hch
    simp only [List.mem_cons, List.not_mem_nil, or_false] at hch
    rcases hch with h | h <;> subst h <;> simp [writeChannel_length, h0, h1]

lemma wfBuf_consume {b : AudioBuffer} (hb : WfBuf b) (n : Nat) :
    WfBuf (b.consume n) := by
  obtain ⟨hN, hav, hrp, hwpEq, hnc, hlen2, hchlen⟩ := hb
  have hmin : min n b.availableSamples ≤ b.availableSamples := Nat.min_le_right _ _
  rw [consume_eq b n hrp]
  unfold WfBuf
  dsimp only
  refine ⟨hN, by omega, Nat.mod_lt _ hN, ?_, hnc, hlen2, hchlen⟩
  rw [hwpEq, Nat.mod_add_mod]
  congr 1
  omega

lemma wfBuf_clear {b : AudioBuffer} (hb : WfBuf b) : WfBuf b.clear := by
  obtain ⟨hN, hav, hrp, hwpEq, hnc, hlen2, hchlen⟩ := hb
  unfold WfBuf AudioBuffer.clear
  dsimp only
  refine ⟨hN, Nat.zero_le _, hN, by simp, hnc, by simp [hlen2], ?_⟩
  intro ch hch
  simp only [List.mem_map] at hch
  obtain ⟨c, _, hc⟩ := hch
  simp [← hc]

lemma wfBuf_empty (cap : Nat) (hcap : 0 < cap) : WfBuf (emptyBuffer cap) := by
  unfold WfBuf emptyBuffer
  dsimp only
  refine ⟨hcap, Nat.zero_le _, hcap, by simp, rfl, rfl, ?_⟩
  intro ch hch
  simp only [List.mem_cons, List.not_mem_nil, or_false] at hch
  rcases hch with h | h <;> simp [h]

lemma wfBuf_init : WfBuf initAudioBuffer := wfBuf_empty 96000 (by norm_num)

lemma reachable_wf {b : AudioBuffer} (hb : ReachableBuffer b) : WfBuf b := by
  induction hb with
  | init => exact wfBuf_init
  | write b xs size _ ih => exact wfBuf_write ih xs size
  | read b n _ ih => exact wfBuf_consume ih n
  | clearStep b _ ih => exact wfBuf_clear ih

lemma wfBuf_int_mod {b : AudioBuffer} (hb : WfBuf b) :
    ((b.writePosition : Int) - (b.readPosition : Int)) % (b.numSamples : Int)
      = (b.availableSamples : Int) % (b.numSamples : Int) := by
  obtain ⟨hN, hav, hrp, hwpEq, _⟩ := hb
  rw [hwpEq]
  push_cast
  rw [Int.sub_emod, Int.emod_emod_of_dvd _ (dvd_refl _), ← Int.sub_emod]
  congr 1
  ring

lemma clearChannel_getD (ch : List ℚ) (n i : Nat) (hi : i < n) :
    (clearChannel ch n).getD i 0 = 0 := by
  unfold clearChannel
  rw [List.getD_append _ _ _ _ (by simpa using hi)]
  simp [List.getD_eq_getElem?_getD, List.getElem?_replicate, hi]

lemma clearChannel_length_ge (ch : List ℚ) (n : Nat) : n ≤ (clearChannel ch n).length := by
  unfold clearChannel
  simp

lemma readChannel_length (src : List ℚ) (cap rp cnt : Nat) :
    (readChannel src cap rp cnt).length = cnt := by
  unfold readChannel
  simp

lemma readChannel_getD (src : List ℚ) (cap rp cnt i : Nat) (hi : i < cnt) :
    (readChannel src cap rp cnt).getD i 0 = src.getD ((rp + i) % cap) 0 :=
  getD_range_map _ _ _ hi

lemma getD_drop (l : List ℚ) (m k : Nat) : (l.drop m).getD k 0 = l.getD (m + k) 0 := by
  simp [List.getD_eq_getElem?_getD, List.getElem?_drop]

lemma writeOut_length : ∀ (outs srcs : List (List ℚ)) (numCh cap rp cnt : Nat),
    (writeOut outs srcs numCh cap rp cnt).length = outs.length := by
  intro outs
  induction outs with
  | nil => intro srcs numCh cap rp cnt; cases srcs <;> cases numCh <;> rfl
  | cons o os ih =>
      intro srcs numCh cap rp cnt
      cases numCh with
      | zero => cases srcs <;> rfl
      | succ k =>
        cases srcs with
        | nil => rfl
        | cons s ss => simp [writeOut, ih]

lemma writeOut_getD : ∀ (outs srcs : List (List ℚ)) (numCh cap rp cnt ch : Nat),
    numCh ≤ srcs.length →
    (writeOut outs srcs numCh cap rp cnt).getD ch []
      = if ch < min numCh outs.length
        then readChannel (srcs.getD ch []) cap rp cnt ++ (outs.getD ch []).drop cnt
        else outs.getD ch [] := by
  intro outs
  induction outs with
  | nil =>
      intro srcs numCh cap rp cnt ch _
      cases srcs <;> cases numCh <;> simp [writeOut]
  | cons o os ih =>
      intro srcs numCh cap rp cnt ch h2
      cases numCh with
      | zero => cases srcs <;> simp [writeOut]
      | succ k =>
        cases srcs with
        | nil => simp at h2
        | cons s ss =>
            cases ch with
            | zero => simp [writeOut]
            | succ c =>
                simp only [writeOut, List.getD_cons_succ]
                rw [ih ss k cap rp cnt c (by simpa using h2)]
                by_cases hc : c < min k os.length
                · rw [if_pos hc, if_pos (by simp at hc ⊢; omega)]
                · rw [if_neg hc, if_neg (by simp at hc ⊢; omega)]

lemma map_clear_getD (numSamples : Nat) :
    ∀ (os : List (List ℚ)) (ch i : Nat), i < numSamples →
      ((os.map (fun c => clearChannel c numSamples)).getD ch []).getD i 0 = 0 := by
  intro os
  induction os with
  | nil => intro ch i hi; simp
  | cons o os ih =>
      intro ch i hi
      cases ch with
      | zero => simpa using clearChannel_getD o numSamples i hi
      | succ c => simpa using ih c i hi

lemma ioCallback_skip (s : PlayerState) (out : List (List ℚ)) (n : Nat)
    (h : s.isCurrentlyPlaying = false ∨ s.hasAudioStream = false ∨ s.audioRingBuffer = none) :
    audioDeviceIOCallback s out n = (s, out.map (fun ch => clearChannel ch n)) := by
  unfold audioDeviceIOCallback
  cases ho : s.audioRingBuffer with
  | none => rfl
  | some b =>
      dsimp only
      rcases h with h | h | h
      · rw [if_neg (by rw [h]; simp)]
      · rw [if_neg (by rw [h]; simp)]
      · rw [ho] at h; exact Option.noConfusion h

lemma ioCallback_read_zero (s : PlayerState) (out : List (List ℚ)) (n : Nat)
    (b : AudioBuffer) (hb : s.audioRingBuffer = some b)
    (hzero : min n b.availableSamples = 0) :
    audioDeviceIOCallback s out n = (s, out.map (fun ch => clearChannel ch n)) := by
  unfold audioDeviceIOCallback
  rw [hb]
  dsimp only
  by_cases hcond : s.hasAudioStream = true ∧ s.isCurrentlyPlaying = true
  · rw [if_pos hcond, if_neg (by rw [hzero]; omega)]
  · rw [if_neg hcond]

lemma ioCallback_read (s : PlayerState) (out : List (List ℚ)) (n : Nat)
    (b : AudioBuffer) (hb : s.audioRingBuffer = some b)
    (hp : s.isCurrentlyPlaying = true) (ha : s.hasAudioStream = true)
    (hpos : 0 < min n b.availableSamples) :
    audioDeviceIOCallback s out n =
      ({ s with
          audioRingBuffer := some (b.consume n)
          currentAudioSample := s.currentAudioSample + min n b.availableSamples },
       writeOut (out.map (fun ch => clearChannel ch n)) b.data
         (min out.length b.numChannels) b.numSamples b.readPosition
         (min n b.availableSamples)) := by
  unfold audioDeviceIOCallback
  rw [hb]
  dsimp only
  rw [if_pos ⟨ha, hp⟩, if_pos hpos]
  simp only [List.length_map]

lemma list_eq_of_getD {l1 l2 : List ℚ} (hlen : l1.length = l2.length)
    (h : ∀ i < l1.length, l1.getD i 0 = l2.getD i 0) : l1 = l2 := by
  apply List.ext_getElem hlen
  intro i h1 h2
  have hi := h i h1
  rwa [List.getD_eq_getElem?_getD, List.getD_eq_getElem?_getD,
       List.getElem?_eq_getElem h1, List.getElem?_eq_getElem h2,
       Option.getD_some, Option.getD_some] at hi

/-- Two consecutive producer writes into the cleared buffer, totalling at
most the capacity, store the first block at `[0, n1)` and the second at
`[n1, n1 + n2)`. -/
lemma double_write_getD (cap n1 n2 : Nat) (v1 v2 : Nat → ℚ)
    (hsum : n1 + n2 ≤ cap) :
    ∀ i < n1 + n2,
      (writeChannel (writeChannel (List.replicate cap (0 : ℚ)) cap 0 v1 n1)
          cap (n1 % cap) v2 n2).getD i 0
        = if i < n1 then v1 i else v2 (i - n1) := by
  intro i hi
  have hlen1 : (writeChannel (List.replicate cap (0 : ℚ)) cap 0 v1 n1).length = cap := by
    rw [writeChannel_length]
    simp
  by_cases hin : i < n1
  · rw [if_pos hin]
    have houter : (writeChannel (writeChannel (List.replicate cap (0 : ℚ)) cap 0 v1 n1)
          cap (n1 % cap) v2 n2).getD i 0
        = (writeChannel (List.replicate cap (0 : ℚ)) cap 0 v1 n1).getD i 0 := by
      apply writeChannel_getD_outside
      intro k hk hcontra
      rw [Nat.mod_add_mod, Nat.mod_eq_of_lt (show n1 + k < cap by omega)] at hcontra
      omega
    rw [houter]
    have hw := writeChannel_getD_written (List.replicate cap (0 : ℚ)) cap 0 v1
      (by simp) n1 (by omega) i hin
    rwa [Nat.zero_add, Nat.mod_eq_of_lt (by omega)] at hw
  · rw [if_neg hin]
    have hk : i - n1 < n2 := by omega
    have hw := writeChannel_getD_written
      (writeChannel (List.replicate cap (0 : ℚ)) cap 0 v1 n1) cap (n1 % cap) v2
      hlen1 n2 (by omega) (i - n1) hk
    have hidx : (n1 % cap + (i - n1)) % cap = i := by
      rw [Nat.mod_add_mod, show n1 + (i - n1) = i by omega]
      exact Nat.mod_eq_of_lt (by omega)
    rwa [hidx] at hw

/-- `processAudioData` on the cleared buffer: `8 * n` bytes are `n` frames,
all of which fit when `n ≤ cap`. -/
lemma processAudioData_empty (cap : Nat) (xs : List ℚ) (n : Nat)
    (hcap : 0 < cap) (hn : n ≤ cap) :
    processAudioData (emptyBuffer cap) xs (8 * n)
      = { numChannels := 2
          numSamples := cap
          data := [writeChannel (List.replicate cap 0) cap 0 (fun i => xs.getD (2 * i) 0) n,
                   writeChannel (List.replicate cap 0) cap 0 (fun i => xs.getD (2 * i + 1) 0) n]
          writePosition := n % cap
          readPosition := 0
          availableSamples := n } := by
  have hwc : writtenCount (emptyBuffer cap) (8 * n) = n := by
    unfold writtenCount emptyBuffer
    dsimp only
    by_cases h : 8 * n = 0
    · rw [if_pos h]
      omega
    · rw [if_neg h, Nat.mul_div_cancel_left n (by norm_num), Nat.sub_zero]
      exact Nat.min_eq_left hn
  have h := processAudioData_eq (emptyBuffer cap) xs (8 * n)
    (List.replicate cap 0) (List.replicate cap 0) rfl hcap
  rw [hwc] at h
  rw [h]
  simp [emptyBuffer]

/-- The second write lands after the first: the state after
`write n1; write n2` on the cleared buffer. -/
lemma processAudioData_second (cap n1 n2 : Nat) (xs1 xs2 : List ℚ)
    (hcap : 0 < cap) (hsum : n1 + n2 ≤ cap) :
    processAudioData (processAudioData (emptyBuffer cap) xs1 (8 * n1)) xs2 (8 * n2)
      = { numChannels := 2
          numSamples := cap
          data := [writeChannel
                     (writeChannel (List.replicate cap 0) cap 0 (fun i => xs1.getD (2 * i) 0) n1)
                     cap (n1 % cap) (fun i => xs2.getD (2 * i) 0) n2,
                   writeChannel
                     (writeChannel (List.replicate cap 0) cap 0 (fun i => xs1.getD (2 * i + 1) 0) n1)
                     cap (n1 % cap) (fun i => xs2.getD (2 * i + 1) 0) n2]
          writePosition := (n1 % cap + n2) % cap
          readPosition := 0
          availableSamples := n1 + n2 } := by
  rw [processAudioData_empty cap xs1 n1 hcap (by omega)]
  have hwc : writtenCount
      { numChannels := 2
        numSamples := cap
        data := [writeChannel (List.replicate cap 0) cap 0 (fun i => xs1.getD (2 * i) 0) n1,
                 writeChannel (List.replicate cap 0) cap 0 (fun i => xs1.getD (2 * i + 1) 0) n1]
        writePosition := n1 % cap
        readPosition := 0
        availableSamples := n1 } (8 * n2) = n2 := by
    unfold writtenCount
    dsimp only
    by_cases h : 8 * n2 = 0
    · rw [if_pos h]
      omega
    · rw [if_neg h, Nat.mul_div_cancel_left n2 (by norm_num)]
      exact Nat.min_eq_left (by omega)
  have h := processAudioData_eq
    { numChannels := 2
      numSamples := cap
      data := [writeChannel (List.replicate cap 0) cap 0 (fun i => xs1.getD (2 * i) 0) n1,
               writeChannel (List.replicate cap 0) cap 0 (fun i => xs1.getD (2 * i + 1) 0) n1]
      writePosition := n1 % cap
      readPosition := 0
      availableSamples := n1 } xs2 (8 * n2) _ _ rfl (Nat.mod_lt _ hcap)
  rw [hwc] at h
  rw [h]

/-- Reading everything back after the two writes returns the two blocks
concatenated in write order. -/
lemma roundtrip_channel (cap n1 n2 : Nat) (v1 v2 : Nat → ℚ)
    (hcap : 0 < cap) (hsum : n1 + n2 ≤ cap) :
    readChannel (writeChannel (writeChannel (List.replicate cap (0 : ℚ)) cap 0 v1 n1)
        cap (n1 % cap) v2 n2) cap 0 (n1 + n2)
      = (List.range n1).map v1 ++ (List.range n2).map v2 := by
  apply list_eq_of_getD
  · rw [readChannel_length]
    simp
  · intro i hi
    rw [readChannel_length] at hi
    have hidx : (0 + i) % cap = i := by
      rw [Nat.zero_add]
      exact Nat.mod_eq_of_lt (by omega)
    rw [readChannel_getD _ _ _ _ _ hi, hidx,
        double_write_getD cap n1 n2 v1 v2 hsum i hi]
    by_cases hin : i < n1
    · rw [if_pos hin, List.getD_append _ _ _ _ (by simpa using hin),
          getD_range_map _ _ _ hin]
    · rw [if_neg hin, List.getD_append_right _ _ _ _ (by simpa using (by omega : n1 ≤ i))]
      rw [List.length_map, List.length_range, getD_range_map _ _ _ (by omega)]

lemma flatMap_four_length (g : Nat → List Nat) (hg : ∀ q, (g q).length = 4) :
    ∀ n, ((List.range n).flatMap g).length = 4 * n := by
  intro n
  induction n with
  | zero => rfl
  | succ k ih =>
      rw [List.range_succ]
      simp only [List.flatMap_append, List.flatMap_cons, List.flatMap_nil,
                 List.append_nil, List.length_append, ih, hg]
      omega

lemma flatMap_four_getD (g : Nat → List Nat) (hg : ∀ q, (g q).length = 4) :
    ∀ n p o, p < n → o < 4 →
      ((List.range n).flatMap g).getD (4 * p + o) 0 = (g p).getD o 0 := by
  intro n
  induction n with
  | zero => intro p o hp _; omega
  | succ k ih =>
      intro p o hp ho
      rw [List.range_succ]
      simp only [List.flatMap_append, List.flatMap_cons, List.flatMap_nil, List.append_nil]
      by_cases hpk : p < k
      · rw [List.getD_append _ _ _ _ (by rw [flatMap_four_length g hg]; omega)]
        exact ih p o hpk ho
      · have hp' : p = k := by omega
        subst hp'
        rw [List.getD_append_right _ _ _ _ (by rw [flatMap_four_length g hg]; omega),
            flatMap_four_length g hg,
            show 4 * p + o - 4 * p = o by omega]

/-! ### The claims -/

/-- Claim C1, amended.  The claim's equation
`available == (writePos - readPos) mod N` fails in exactly one reachable
situation: a completely full buffer, where `available = N` while the mod-`N`
difference of the cursors is `0` (see `claim1_counterexample`).  What holds
for every reachable state is the congruence
`(writePos - readPos) mod N == available mod N` together with
`available ≤ N`, with equality whenever the buffer is not full; and the
producer/consumer clauses hold as claimed: `processAudioData` advances only
`writePosition` and `availableSamples`, upward by the written amount, and
`consume` advances only `readPosition` and decrements `availableSamples` by
the amount read. -/
theorem claim1_ringBuffer_invariant (b : AudioBuffer) (hb : ReachableBuffer b) :
    (0 < b.numSamples ∧ b.availableSamples ≤ b.numSamples ∧
      b.readPosition < b.numSamples ∧ b.writePosition < b.numSamples ∧
      ((b.writePosition : Int) - (b.readPosition : Int)) % (b.numSamples : Int)
        = (b.availableSamples : Int) % (b.numSamples : Int) ∧
      (b.availableSamples < b.numSamples →
        ((b.writePosition : Int) - (b.readPosition : Int)) % (b.numSamples : Int)
          = (b.availableSamples : Int))) ∧
    (∀ xs size,
      (processAudioData b xs size).readPosition = b.readPosition ∧
      (processAudioData b xs size).availableSamples
        = b.availableSamples + writtenCount b size ∧
      (processAudioData b xs size).writePosition
        = (b.writePosition + writtenCount b size) % b.numSamples) ∧
    (∀ n,
      (b.consume n).writePosition = b.writePosition ∧
      (b.consume n).availableSamples = b.availableSamples - min n b.availableSamples ∧
      (b.consume n).readPosition
        = (b.readPosition + min n b.availableSamples) % b.numSamples) := by
  have hwf := reachable_wf hb
  have hwp := wfBuf_writePos_lt hwf
  have hmod := wfBuf_int_mod hwf
  obtain ⟨hN, hav, hrp, hwpEq, hnc, hlen2, hchlen⟩ := hwf
  obtain ⟨d0, d1, hdata⟩ := List.length_eq_two.mp hlen2
  refine ⟨⟨hN, hav, hrp, hwp, hmod, ?_⟩, ?_, ?_⟩
  · intro hlt
    rw [hmod]
    exact Int.emod_eq_of_lt (by positivity) (by exact_mod_cast hlt)
  · intro xs size
    rw [processAudioData_eq b xs size d0 d1 hdata hwp]
    exact ⟨rfl, rfl, rfl⟩
  · intro n
    rw [consume_eq b n hrp]
    exact ⟨rfl, rfl, rfl⟩

/-- Witness for `claim1_ringBuffer_invariant` at the freshly constructed
buffer. -/
theorem claim1_ringBuffer_invariant_witness :
    ReachableBuffer initAudioBuffer ∧
    0 < initAudioBuffer.numSamples ∧
    initAudioBuffer.availableSamples ≤ initAudioBuffer.numSamples :=
  ⟨ReachableBuffer.init,
   (claim1_ringBuffer_invariant initAudioBuffer ReachableBuffer.init).1.1,
   (claim1_ringBuffer_invariant initAudioBuffer ReachableBuffer.init).1.2.1⟩

/-- Counterexample to claim C1 as stated: one producer write of a
768000-byte (96000-frame) block into the freshly constructed buffer — a
state reachable in one step — fills it completely, and then
`available = 96000` while `(writePos - readPos) mod N = (0 - 0) mod 96000 = 0`. -/
theorem claim1_counterexample :
    ReachableBuffer fullBuffer ∧
    ((fullBuffer.writePosition : Int) - (fullBuffer.readPosition : Int))
        % (fullBuffer.numSamples : Int) ≠ (fullBuffer.availableSamples : Int) := by
  constructor
  · exact ReachableBuffer.write initAudioBuffer [] 768000 ReachableBuffer.init
  · have h := processAudioData_eq initAudioBuffer [] 768000
      (List.replicate 96000 0) (List.replicate 96000 0) rfl (by decide)
    have hwc : writtenCount initAudioBuffer 768000 = 96000 := by
      norm_num [writtenCount, initAudioBuffer, emptyBuffer]
    have hw : fullBuffer.writePosition = 0 := by
      unfold fullBuffer
      rw [h]
      dsimp only
      rw [hwc]
      norm_num [initAudioBuffer, emptyBuffer]
    have hr : fullBuffer.readPosition = 0 := by
      unfold fullBuffer
      rw [h]
      dsimp only
      norm_num [initAudioBuffer, emptyBuffer]
    have ha : fullBuffer.availableSamples = 96000 := by
      unfold fullBuffer
      rw [h]
      dsimp only
      rw [hwc]
      norm_num [initAudioBuffer, emptyBuffer]
    have hn : fullBuffer.numSamples = 96000 := by
      unfold fullBuffer
      rw [h]
      dsimp only
      norm_num [initAudioBuffer, emptyBuffer]
    rw [hw, hr, ha, hn]
    decide

/-- Claim C2 — the code violates it in one place.  Six of the seven
decoder-callback entry points null-check the opaque context pointer (and
the cast adapter-instance pointer) and return as no-ops on a null context;
`audioFlushCallback`, however, casts `data` and immediately reads
`player->audioRingBuffer` without any check, so a null context is a null
dereference there. -/
theorem claim2_callback_null_checks :
    (∀ pcmNull, audioLockCallback none pcmNull = .noop) ∧
    (∀ pcm size, audioUnlockCallback none pcm size = .noop) ∧
    (∀ planesNull, videoLockCallback none planesNull = .noop) ∧
    (∀ picNull planesNull, videoUnlockCallback none picNull planesNull = .noop) ∧
    (∀ picNull, videoDisplayCallback none picNull = .noop) ∧
    (∀ w h, videoFormatCallback false none w h = ⟨0, none, none, none⟩) ∧
    (∀ data w h, videoFormatCallback true data w h = ⟨0, none, none, none⟩) ∧
    audioFlushCallback none = .nullDeref := by
  refine ⟨fun p => by cases p <;> rfl, fun p s => rfl, fun p => by cases p <;> rfl,
          fun a b => by cases a <;> cases b <;> rfl,
          fun p => by cases p <;> rfl, fun w h => rfl, fun d w h => rfl, rfl⟩

/-- Claim C6: `seekToSample n` agrees exactly (result and state) with
`seekToTime (n / sampleRate)` whenever an audio stream is present and the
sample rate is positive; and it returns `false` with no state change and no
engine call when there is no audio stream, the sample rate is non-positive,
or the player/media handle is null. -/
theorem claim6_seekToSample_delegation :
    (∀ (s : PlayerState) (n : Int), s.hasAudioStream = true → 0 < s.currentSampleRate →
      seekToSample s n = seekToTime s ((n : ℚ) / s.currentSampleRate)) ∧
    (∀ (s : PlayerState) (n : Int),
      (s.hasAudioStream = false ∨ s.currentSampleRate ≤ 0 ∨
        s.mediaPlayerOpen = false ∨ s.currentMediaOpen = false) →
      seekToSample s n = ⟨s, false, none⟩) := by
  constructor
  · intro s n hA hR
    unfold seekToSample seekToTime
    by_cases hp : s.mediaPlayerOpen = true
    · simp [hp, hA, not_le.mpr hR]
    · simp [hp]
  · intro s n h
    unfold seekToSample seekToTime
    rcases h with h | h | h | h
    · simp [h]
    · by_cases hp : s.mediaPlayerOpen = true ∧ s.hasAudioStream = true
      · simp [hp, h]
      · simp [hp]
    · simp [h]
    · by_cases hp : s.mediaPlayerOpen = true ∧ s.hasAudioStream = true
      · by_cases hr : s.currentSampleRate ≤ 0
        · simp [hp, hr]
        · simp [hp, hr, h]
      · simp [hp]

/-- Witness for `claim6_seekToSample_delegation`: on a playing player with
an audio stream at 44100 Hz, `seekToSample 441` is exactly
`seekToTime (441 / 44100)`; and on a video-only player it fails without a
state change. -/
theorem claim6_seekToSample_delegation_witness :
    (playerWithBuffer testBuffer).hasAudioStream = true ∧
    0 < (playerWithBuffer testBuffer).currentSampleRate ∧
    seekToSample (playerWithBuffer testBuffer) 441
      = seekToTime (playerWithBuffer testBuffer)
          (((441 : Int) : ℚ) / (playerWithBuffer testBuffer).currentSampleRate) ∧
    videoOnlyPlayer.hasAudioStream = false ∧
    seekToSample videoOnlyPlayer 441 = ⟨videoOnlyPlayer, false, none⟩ :=
  ⟨rfl, by norm_num [playerWithBuffer, freshPlayer],
   claim6_seekToSample_delegation.1 (playerWithBuffer testBuffer) 441 rfl
     (by norm_num [playerWithBuffer, freshPlayer]),
   rfl,
   claim6_seekToSample_delegation.2 videoOnlyPlayer 441 (Or.inl rfl)⟩

/-- Counterexample to claim C7 as stated: `videoOnlyPlayer` has an open
media (both handles non-null), yet `seekToSample` returns `false` and
leaves the seek generation unchanged, because the media has no audio
stream. -/
theorem claim7_counterexample :
    videoOnlyPlayer.mediaPlayerOpen = true ∧
    videoOnlyPlayer.currentMediaOpen = true ∧
    (seekToSample videoOnlyPlayer 480000).returned = false ∧
    (seekToSample videoOnlyPlayer 480000).state.seekGeneration
      = videoOnlyPlayer.seekGeneration :=
  ⟨rfl, rfl, rfl, rfl⟩

/-- Claim C7, amended: every `seekToTime` call while a media is open
(player and media handles non-null) increments the seek generation by
exactly one, clears the ring buffer (`writePos = readPos = available = 0`)
and returns `true`; `seekToSample` does the same provided its own guards
also pass, i.e. an audio stream is present and the sample rate is positive
(otherwise it returns `false` without touching any state, see
`claim7_counterexample`). -/
theorem claim7_seek_generation (s : PlayerState) (t : ℚ) (n : Int)
    (hp : s.mediaPlayerOpen = true) (hm : s.currentMediaOpen = true) :
    ((seekToTime s t).returned = true ∧
     (seekToTime s t).state.seekGeneration = s.seekGeneration + 1 ∧
     (seekToTime s t).state.audioRingBuffer = s.audioRingBuffer.map AudioBuffer.clear ∧
     (∀ b, (seekToTime s t).state.audioRingBuffer = some b →
        b.writePosition = 0 ∧ b.readPosition = 0 ∧ b.availableSamples = 0)) ∧
    (s.hasAudioStream = true → 0 < s.currentSampleRate →
      (seekToSample s n).returned = true ∧
      (seekToSample s n).state.seekGeneration = s.seekGeneration + 1 ∧
      (seekToSample s n).state.audioRingBuffer = s.audioRingBuffer.map AudioBuffer.clear) := by
  have hTime : ∀ u : ℚ, seekToTime s u
      = ⟨{ s with seekGeneration := s.seekGeneration + 1
                  audioRingBuffer := s.audioRingBuffer.map AudioBuffer.clear },
         true, some (ratTrunc (u * 1000))⟩ := by
    intro u
    unfold seekToTime
    rw [if_pos ⟨hp, hm⟩]
  constructor
  · rw [hTime t]
    refine ⟨rfl, rfl, rfl, ?_⟩
    intro b hb
    dsimp only at hb
    cases ho : s.audioRingBuffer with
    | none => rw [ho] at hb; simp at hb
    | some a =>
        rw [ho] at hb
        simp only [Option.map_some', Option.some.injEq] at hb
        rw [← hb]
        exact ⟨rfl, rfl, rfl⟩
  · intro hA hR
    unfold seekToSample
    rw [if_pos ⟨hp, hA⟩, if_neg (not_le.mpr hR), hTime]
    exact ⟨rfl, rfl, rfl⟩

/-- Witness for `claim7_seek_generation` on a player with an open media. -/
theorem claim7_seek_generation_witness :
    (playerWithBuffer testBuffer).mediaPlayerOpen = true ∧
    (playerWithBuffer testBuffer).currentMediaOpen = true ∧
    (seekToTime (playerWithBuffer testBuffer) 2).returned = true ∧
    (seekToTime (playerWithBuffer testBuffer) 2).state.seekGeneration
      = (playerWithBuffer testBuffer).seekGeneration + 1 :=
  ⟨rfl, rfl, (claim7_seek_generation (playerWithBuffer testBuffer) 2 0 rfl rfl).1.1,
   (claim7_seek_generation (playerWithBuffer testBuffer) 2 0 rfl rfl).1.2.1⟩

/-- Claim C9: after `stop()` with a non-null player handle the playing flag
is false, `getCurrentSample() == 0` and the ring buffer is cleared; after
`close()` from any state, `hasAudio()` and `hasVideo()` are false,
`getTotalDuration() == -1.0`, `getTotalSamples() == -1`,
`getCurrentSample() == 0` and the video dimensions are zero. -/
theorem claim9_stop_close_postconditions :
    (∀ s : PlayerState, s.mediaPlayerOpen = true →
      isPlaying (stop s) = false ∧
      getCurrentSample (stop s) = 0 ∧
      (stop s).audioRingBuffer = s.audioRingBuffer.map AudioBuffer.clear ∧
      ∀ b, (stop s).audioRingBuffer = some b →
        b.writePosition = 0 ∧ b.readPosition = 0 ∧ b.availableSamples = 0) ∧
    (∀ s : PlayerState,
      hasAudio (close s) = false ∧ hasVideo (close s) = false ∧
      getTotalDuration (close s) = -1 ∧ getTotalSamples (close s) = -1 ∧
      getCurrentSample (close s) = 0 ∧
      (close s).videoWidth = 0 ∧ (close s).videoHeight = 0) := by
  constructor
  · intro s hs
    have hbuf : (stop s).audioRingBuffer = s.audioRingBuffer.map AudioBuffer.clear := by
      simp [stop, hs]
    refine ⟨by simp [stop, isPlaying, hs], by simp [stop, getCurrentSample, hs], hbuf, ?_⟩
    intro b hb
    rw [hbuf] at hb
    cases ho : s.audioRingBuffer with
    | none => rw [ho] at hb; simp at hb
    | some a =>
        rw [ho] at hb
        simp only [Option.map_some', Option.some.injEq] at hb
        rw [← hb]
        exact ⟨rfl, rfl, rfl⟩
  · intro s
    exact ⟨rfl, rfl, rfl, rfl, rfl, rfl, rfl⟩

/-- Witness for `claim9_stop_close_postconditions` on the freshly
constructed player. -/
theorem claim9_stop_close_postconditions_witness :
    freshPlayer.mediaPlayerOpen = true ∧ isPlaying (stop freshPlayer) = false :=
  ⟨rfl, (claim9_stop_close_postconditions.1 freshPlayer rfl).1⟩

/-- Counterexample to claim C10 as stated: with an open media,
`seekToTime (-1/2000)` forwards `0` ms to the engine, while the floor of
`(-1/2000) * 1000 = -1/2` is `-1` — the cast truncates toward zero rather
than flooring. -/
theorem claim10_counterexample :
    openPlayer.mediaPlayerOpen = true ∧
    openPlayer.currentMediaOpen = true ∧
    (seekToTime openPlayer (-(1 / 2000))).engineSetTimeMs = some 0 ∧
    ⌊(-(1 / 2000) : ℚ) * 1000⌋ = -1 := by
  refine ⟨rfl, rfl, ?_, by norm_num [Int.floor_eq_iff]⟩
  show some (ratTrunc (-(1 / 2000) * 1000)) = some 0
  norm_num [ratTrunc]

/-- Claim C10, amended: `seekToTime` performs no range validation — for
every time `t`, negative or arbitrarily large, with non-null player and
media handles it returns `true`, increments the seek generation, clears the
ring buffer, and forwards `t * 1000` milliseconds truncated toward zero
(which agrees with flooring for all non-negative `t`) to the engine
unchanged. -/
theorem claim10_seekToTime_no_validation (s : PlayerState) (t : ℚ)
    (hp : s.mediaPlayerOpen = true) (hm : s.currentMediaOpen = true) :
    (seekToTime s t).returned = true ∧
    (seekToTime s t).state.seekGeneration = s.seekGeneration + 1 ∧
    (seekToTime s t).state.audioRingBuffer = s.audioRingBuffer.map AudioBuffer.clear ∧
    (seekToTime s t).engineSetTimeMs = some (ratTrunc (t * 1000)) := by
  unfold seekToTime
  rw [if_pos ⟨hp, hm⟩]
  exact ⟨rfl, rfl, rfl, rfl⟩

/-- Claim C8: for every format callback with a valid context and positive
dimensions W x H, the adapter reports stride `W * 4` and `H` lines,
allocates a frame buffer of exactly `W * H * 4` bytes, publishes W and H,
and returns 1; and a subsequent display callback — after the engine fills
the locked buffer with arbitrary bytes `src` — produces a W-by-H
frame-store image whose pixel bytes are swapped from input order R,G,B,A
(offsets 0..3) to output order B,G,R,A. -/
theorem claim8_video_format_display (p : PlayerState) (W H : Nat) (src : List Nat)
    (hW : 0 < W) (hH : 0 < H) (hsrc : src.length = W * H * 4) :
    (videoFormatCallback false (some p) W H).returned = 1 ∧
    (videoFormatCallback false (some p) W H).pitches = some (W * 4) ∧
    (videoFormatCallback false (some p) W H).lines = some H ∧
    (∀ p2, (videoFormatCallback false (some p) W H).state = some p2 →
      p2.videoFrameBufferSize = W * H * 4 ∧
      p2.videoFrameBuffer = some (List.replicate (W * H * 4) 0) ∧
      p2.videoWidth = (W : Int) ∧ p2.videoHeight = (H : Int) ∧
      videoDisplayCallback (some (engineFillsFrameBuffer p2 src)) false
        = CbResult.ran { engineFillsFrameBuffer p2 src with
            currentVideoFrame := some ⟨(W : Int), (H : Int), convertFrame src W H⟩ }) ∧
    (convertFrame src W H).length = W * H * 4 ∧
    (∀ x y, x < W → y < H →
      (convertFrame src W H).getD ((y * W + x) * 4 + 0) 0
          = src.getD ((y * W + x) * 4 + 2) 0 ∧
      (convertFrame src W H).getD ((y * W + x) * 4 + 1) 0
          = src.getD ((y * W + x) * 4 + 1) 0 ∧
      (convertFrame src W H).getD ((y * W + x) * 4 + 2) 0
          = src.getD ((y * W + x) * 4 + 0) 0 ∧
      (convertFrame src W H).getD ((y * W + x) * 4 + 3) 0
          = src.getD ((y * W + x) * 4 + 3) 0) := by
  have hg : ∀ q, ([src.getD (q * 4 + 2) 0, src.getD (q * 4 + 1) 0,
      src.getD (q * 4 + 0) 0, src.getD (q * 4 + 3) 0] : List Nat).length = 4 := by
    intro q
    rfl
  have hpix : ∀ x y, x < W → y < H → y * W + x < H * W := by
    intro x y hx hy
    have h1 : y * W + x < y * W + W := by omega
    have h2 : y * W + W = (y + 1) * W := by ring
    have h3 : (y + 1) * W ≤ H * W := Nat.mul_le_mul_right W (by omega)
    omega
  have hconv : ∀ x y, x < W → y < H → ∀ o, o < 4 →
      (convertFrame src W H).getD ((y * W + x) * 4 + o) 0
        = ([src.getD ((y * W + x) * 4 + 2) 0, src.getD ((y * W + x) * 4 + 1) 0,
            src.getD ((y * W + x) * 4 + 0) 0, src.getD ((y * W + x) * 4 + 3) 0]).getD o 0 := by
    intro x y hx hy o ho
    unfold convertFrame
    rw [show (y * W + x) * 4 + o = 4 * (y * W + x) + o by ring]
    exact flatMap_four_getD _ hg (H * W) (y * W + x) o (hpix x y hx hy) ho
  refine ⟨rfl, rfl, rfl, ?_, ?_, ?_⟩
  · intro p2 hp2
    simp only [videoFormatCallback, Bool.false_eq_true, if_false, reduceIte,
               Option.some.injEq] at hp2
    subst hp2
    refine ⟨rfl, rfl, rfl, rfl, ?_⟩
    show CbResult.ran (updateVideoFrameFromBuffer _) = _
    unfold updateVideoFrameFromBuffer engineFillsFrameBuffer updateVideoSize
    dsimp only [Option.map_some']
    rw [if_neg (by positivity), if_neg (by omega)]
    simp [Int.toNat_natCast]
  · have hlen := flatMap_four_length _ hg (H * W)
    unfold convertFrame
    rw [hlen]
    ring
  · intro x y hx hy
    exact ⟨hconv x y hx hy 0 (by omega), hconv x y hx hy 1 (by omega),
           hconv x y hx hy 2 (by omega), hconv x y hx hy 3 (by omega)⟩

/-- Witness for `claim8_video_format_display` at W = H = 1 with the frame
bytes `[10, 20, 30, 40]` (R,G,B,A): the converted image bytes are
`[30, 20, 10, 40]` (B,G,R,A). -/
theorem claim8_video_format_display_witness :
    (0 : Nat) < 1 ∧ ([10, 20, 30, 40] : List Nat).length = 1 * 1 * 4 ∧
    (videoFormatCallback false (some freshPlayer) 1 1).returned = 1 ∧
    (videoFormatCallback false (some freshPlayer) 1 1).pitches = some (1 * 4) ∧
    (convertFrame [10, 20, 30, 40] 1 1).getD ((0 * 1 + 0) * 4 + 0) 0
      = ([10, 20, 30, 40] : List Nat).getD ((0 * 1 + 0) * 4 + 2) 0 ∧
    convertFrame [10, 20, 30, 40] 1 1 = [30, 20, 10, 40] := by
  have h := claim8_video_format_display freshPlayer 1 1 [10, 20, 30, 40]
    (by decide) (by decide) (by decide)
  exact ⟨by decide, by decide, h.1, h.2.1,
         (h.2.2.2.2.2 0 0 (by decide) (by decide)).1, by decide⟩

/-- Claim C3: FIFO round-trip.  Starting from a cleared two-channel ring
buffer of any positive capacity, two producer writes of `n1` and `n2`
frames (`8 * n1` and `8 * n2` bytes of interleaved stereo) with
`n1 + n2 ≤ capacity`, followed by a device pull of `n1 + n2` samples,
deliver on each output channel exactly the deinterleaved samples that were
written, in write order. -/
theorem claim3_fifo_roundTrip (cap n1 n2 : Nat) (xs1 xs2 : List ℚ)
    (hcap : 0 < cap) (hsum : n1 + n2 ≤ cap) :
    (audioDeviceIOCallback
        (playerWithBuffer
          (processAudioData (processAudioData (emptyBuffer cap) xs1 (8 * n1)) xs2 (8 * n2)))
        (zeroBlock 2 (n1 + n2)) (n1 + n2)).2
      = [interleavedChannel xs1 0 n1 ++ interleavedChannel xs2 0 n2,
         interleavedChannel xs1 1 n1 ++ interleavedChannel xs2 1 n2] := by
  rcases Nat.eq_zero_or_pos (n1 + n2) with hzero | hpos
  · have h1 : n1 = 0 := by omega
    have h2 : n2 = 0 := by omega
    subst h1
    subst h2
    rw [ioCallback_read_zero _ _ _
          (processAudioData (processAudioData (emptyBuffer cap) xs1 (8 * 0)) xs2 (8 * 0))
          rfl (by simp)]
    simp [zeroBlock, clearChannel, interleavedChannel]
  · rw [processAudioData_second cap n1 n2 xs1 xs2 hcap hsum]
    rw [ioCallback_read _ _ _ _ rfl rfl rfl (by simpa using hpos)]
    dsimp only
    have hout : (zeroBlock 2 (n1 + n2)).map (fun ch => clearChannel ch (n1 + n2))
        = [List.replicate (n1 + n2) (0 : ℚ), List.replicate (n1 + n2) (0 : ℚ)] := by
      have hclr : clearChannel (List.replicate (n1 + n2) (0 : ℚ)) (n1 + n2)
          = List.replicate (n1 + n2) (0 : ℚ) := by
        unfold clearChannel
        rw [show (List.replicate (n1 + n2) (0 : ℚ)).drop (n1 + n2)
              = ((List.replicate (n1 + n2) (0 : ℚ)).drop (List.replicate (n1 + n2) (0 : ℚ)).length)
            by rw [List.length_replicate],
           List.drop_length, List.append_nil]
      simp [zeroBlock, hclr]
    rw [hout]
    have hmin : min (n1 + n2) (n1 + n2) = n1 + n2 := Nat.min_self _
    have hlen2' : min ([List.replicate (n1 + n2) (0 : ℚ),
        List.replicate (n1 + n2) (0 : ℚ)].length) 2 = 2 := by
      simp
    rw [hmin]
    simp only [writeOut, List.length_cons, List.length_nil]
    have hdropL : (List.replicate (n1 + n2) (0 : ℚ)).drop (n1 + n2) = [] := by
      rw [show (List.replicate (n1 + n2) (0 : ℚ)).drop (n1 + n2)
            = ((List.replicate (n1 + n2) (0 : ℚ)).drop (List.replicate (n1 + n2) (0 : ℚ)).length)
          by rw [List.length_replicate],
         List.drop_length]
    rw [hdropL, List.append_nil, List.append_nil]
    rw [roundtrip_channel cap n1 n2 _ _ hcap hsum,
        roundtrip_channel cap n1 n2 _ _ hcap hsum]
    simp [interleavedChannel]

/-- Witness for `claim3_fifo_roundTrip` on a concrete instance: capacity 4,
a two-frame write `[1, 2, 3, 4]` then a one-frame write `[5, 6]`; the pull
of 3 samples returns `[1, 3, 5]` on the left channel and `[2, 4, 6]` on the
right. -/
theorem claim3_fifo_roundTrip_witness :
    0 < 4 ∧ 2 + 1 ≤ 4 ∧
    (audioDeviceIOCallback
        (playerWithBuffer
          (processAudioData (processAudioData (emptyBuffer 4) [1, 2, 3, 4] (8 * 2)) [5, 6] (8 * 1)))
        (zeroBlock 2 (2 + 1)) (2 + 1)).2
      = [interleavedChannel [1, 2, 3, 4] 0 2 ++ interleavedChannel [5, 6] 0 1,
         interleavedChannel [1, 2, 3, 4] 1 2 ++ interleavedChannel [5, 6] 1 1] ∧
    interleavedChannel [1, 2, 3, 4] 0 2 ++ interleavedChannel [5, 6] 0 1 = [1, 3, 5] ∧
    interleavedChannel [1, 2, 3, 4] 1 2 ++ interleavedChannel [5, 6] 1 1 = [2, 4, 6] :=
  ⟨by decide, by decide,
   claim3_fifo_roundTrip 4 2 1 [1, 2, 3, 4] [5, 6] (by decide) (by decide),
   by decide, by decide⟩

/-- Claim C5: on every audio-device callback all output channels are zeroed
first, regardless of playback state; when the playing flag is clear, the
stream flag is clear, or the buffer pointer is null, the state is untouched
and the block is all zeros.  When playing with an audio stream, exactly
`min numSamples available` samples are copied from the ring buffer into the
first `min (device channels) (buffer channels)` output channels (the
remainder of the block and all further channels staying zero), the buffer
cursors advance by exactly that count, and `currentAudioSample` grows by
exactly that count; in particular `available == 0` yields an all-zero
block. -/
theorem claim5_pull_path (s : PlayerState) (out : List (List ℚ)) (numSamples : Nat) :
    ((s.isCurrentlyPlaying = false ∨ s.hasAudioStream = false ∨ s.audioRingBuffer = none) →
      audioDeviceIOCallback s out numSamples
        = (s, out.map (fun ch => clearChannel ch numSamples)) ∧
      (∀ ch i, i < numSamples →
        ((audioDeviceIOCallback s out numSamples).2.getD ch []).getD i 0 = 0)) ∧
    (∀ b, s.audioRingBuffer = some b → WfBuf b →
      s.isCurrentlyPlaying = true → s.hasAudioStream = true →
      ((audioDeviceIOCallback s out numSamples).1.currentAudioSample
          = s.currentAudioSample + min numSamples b.availableSamples) ∧
      ((audioDeviceIOCallback s out numSamples).1.audioRingBuffer
          = some (b.consume numSamples)) ∧
      (b.consume numSamples).availableSamples
          = b.availableSamples - min numSamples b.availableSamples ∧
      (b.consume numSamples).readPosition
          = (b.readPosition + min numSamples b.availableSamples) % b.numSamples ∧
      (b.consume numSamples).writePosition = b.writePosition ∧
      (∀ ch, ch < min out.length b.numChannels →
        (∀ i, i < min numSamples b.availableSamples →
          ((audioDeviceIOCallback s out numSamples).2.getD ch []).getD i 0
            = sampleAt b ch ((b.readPosition + i) % b.numSamples)) ∧
        (∀ i, min numSamples b.availableSamples ≤ i → i < numSamples →
          ((audioDeviceIOCallback s out numSamples).2.getD ch []).getD i 0 = 0)) ∧
      (∀ ch, min out.length b.numChannels ≤ ch → ∀ i < numSamples,
        ((audioDeviceIOCallback s out numSamples).2.getD ch []).getD i 0 = 0) ∧
      (b.availableSamples = 0 → ∀ ch i, i < numSamples →
        ((audioDeviceIOCallback s out numSamples).2.getD ch []).getD i 0 = 0)) := by
  constructor
  · intro h
    have hres := ioCallback_skip s out numSamples h
    exact ⟨hres, fun ch i hi => by rw [hres]; exact map_clear_getD numSamples out ch i hi⟩
  · intro b hb hwf hp ha
    obtain ⟨hN, hav, hrp, hwpEq, hnc, hlen2, hchlen⟩ := hwf
    have hcons := consume_eq b numSamples hrp
    have hconsFields :
        (b.consume numSamples).availableSamples
            = b.availableSamples - min numSamples b.availableSamples ∧
        (b.consume numSamples).readPosition
            = (b.readPosition + min numSamples b.availableSamples) % b.numSamples ∧
        (b.consume numSamples).writePosition = b.writePosition := by
      rw [hcons]
      exact ⟨rfl, rfl, rfl⟩
    by_cases hpos : 0 < min numSamples b.availableSamples
    · have hres := ioCallback_read s out numSamples b hb hp ha hpos
      have hch : min out.length b.numChannels ≤ b.data.length := by
        rw [hlen2, ← hnc]
        exact Nat.min_le_right _ _
      have hgetD : ∀ ch, (audioDeviceIOCallback s out numSamples).2.getD ch []
          = if ch < min (min out.length b.numChannels)
                  (out.map (fun c => clearChannel c numSamples)).length
            then readChannel (b.data.getD ch []) b.numSamples b.readPosition
                   (min numSamples b.availableSamples)
                 ++ ((out.map (fun c => clearChannel c numSamples)).getD ch []).drop
                      (min numSamples b.availableSamples)
            else (out.map (fun c => clearChannel c numSamples)).getD ch [] := by
        intro ch
        rw [hres]
        exact writeOut_getD _ b.data _ b.numSamples b.readPosition _ ch hch
      refine ⟨by rw [hres], by rw [hres], hconsFields.1, hconsFields.2.1, hconsFields.2.2,
              ?_, ?_, ?_⟩
      · intro ch hchlt
        have hcond : ch < min (min out.length b.numChannels)
            (out.map (fun c => clearChannel c numSamples)).length := by
          simp only [List.length_map]
          omega
        constructor
        · intro i hi
          rw [hgetD ch, if_pos hcond,
              List.getD_append _ _ _ _ (by rw [readChannel_length]; exact hi),
              readChannel_getD _ _ _ _ _ hi]
          rfl
        · intro i hlow hhigh
          rw [hgetD ch, if_pos hcond,
              List.getD_append_right _ _ _ _ (by rw [readChannel_length]; exact hlow),
              readChannel_length, getD_drop]
          have heq : min numSamples b.availableSamples
              + (i - min numSamples b.availableSamples) = i := by omega
          rw [heq]
          exact map_clear_getD numSamples out ch i hhigh
      · intro ch hchge i hi
        have hcond : ¬ ch < min (min out.length b.numChannels)
            (out.map (fun c => clearChannel c numSamples)).length := by
          simp only [List.length_map]
          omega
        rw [hgetD ch, if_neg hcond]
        exact map_clear_getD numSamples out ch i hi
      · intro h0
        rw [h0] at hpos
        simp at hpos
    · have hzero : min numSamples b.availableSamples = 0 := by omega
      have hres := ioCallback_read_zero s out numSamples b hb hzero
      have hbuf : b.consume numSamples = b := by
        unfold AudioBuffer.consume
        rw [hzero]
        simp
      refine ⟨?_, ?_, hconsFields.1, hconsFields.2.1, hconsFields.2.2, ?_, ?_, ?_⟩
      · rw [hres, hzero]
        simp
      · rw [hres, hbuf]
        exact hb
      · intro ch _
        refine ⟨fun i hi => by omega, fun i _ hi => ?_⟩
        rw [hres]
        exact map_clear_getD numSamples out ch i hi
      · intro ch _ i hi
        rw [hres]
        exact map_clear_getD numSamples out ch i hi
      · intro _ ch i hi
        rw [hres]
        exact map_clear_getD numSamples out ch i hi

/-- Witness for `claim5_pull_path`: a playing player over `testBuffer`
(one unread sample, value 11 at index 1) pulling a 3-sample block into two
device channels: the first output sample is the buffered one, the rest of
the block is silence, and the counter advanced by exactly 1. -/
theorem claim5_pull_path_witness :
    (playerWithBuffer testBuffer).audioRingBuffer = some testBuffer ∧
    WfBuf testBuffer ∧
    ((audioDeviceIOCallback (playerWithBuffer testBuffer) (zeroBlock 2 3) 3).1.currentAudioSample
        = (playerWithBuffer testBuffer).currentAudioSample + min 3 testBuffer.availableSamples) ∧
    (((audioDeviceIOCallback (playerWithBuffer testBuffer) (zeroBlock 2 3) 3).2.getD 0 []).getD 0 0
        = sampleAt testBuffer 0 ((testBuffer.readPosition + 0) % testBuffer.numSamples)) ∧
    (((audioDeviceIOCallback (playerWithBuffer testBuffer) (zeroBlock 2 3) 3).2.getD 0 []).getD 2 0
        = 0) := by
  have hwf : WfBuf testBuffer := by decide
  have h := (claim5_pull_path (playerWithBuffer testBuffer) (zeroBlock 2 3) 3).2
    testBuffer rfl hwf rfl rfl
  refine ⟨rfl, hwf, h.1, ?_, ?_⟩
  · exact (h.2.2.2.2.2.1 0 (by decide)).1 0 (by decide)
  · exact (h.2.2.2.2.2.1 0 (by decide)).2 2 (by decide) (by decide)

/-- Claim C4: on every well-formed ring-buffer state (the data model's
state space: `available ∈ [0, N]`, cursors in range and related by the ring
invariant), a producer write of a `size`-byte block stores exactly
`min (size / 8) (capacity - available)` frames per channel starting at
`writePos` and wrapping modulo the capacity, advances `writePosition` and
`availableSamples` by that amount, leaves `readPosition` and every
not-yet-read buffered sample unchanged, and drops the excess input. -/
theorem claim4_bounded_write (b : AudioBuffer) (xs : List ℚ) (size : Nat)
    (hwf : WfBuf b) :
    writtenCount b size = min (size / 8) (b.numSamples - b.availableSamples) ∧
    (processAudioData b xs size).availableSamples
      = b.availableSamples + writtenCount b size ∧
    (processAudioData b xs size).writePosition
      = (b.writePosition + writtenCount b size) % b.numSamples ∧
    (processAudioData b xs size).readPosition = b.readPosition ∧
    (∀ i < writtenCount b size,
      sampleAt (processAudioData b xs size) 0 ((b.writePosition + i) % b.numSamples)
          = xs.getD (2 * i) 0 ∧
      sampleAt (processAudioData b xs size) 1 ((b.writePosition + i) % b.numSamples)
          = xs.getD (2 * i + 1) 0) ∧
    (∀ c, ∀ j < b.availableSamples,
      sampleAt (processAudioData b xs size) c ((b.readPosition + j) % b.numSamples)
        = sampleAt b c ((b.readPosition + j) % b.numSamples)) := by
  have hwp := wfBuf_writePos_lt hwf
  obtain ⟨hN, hav, hrp, hwpEq, hnc, hlen2, hchlen⟩ := hwf
  obtain ⟨d0, d1, hdata⟩ := List.length_eq_two.mp hlen2
  have h0 : d0.length = b.numSamples := hchlen d0 (by rw [hdata]; simp)
  have h1 : d1.length = b.numSamples := hchlen d1 (by rw [hdata]; simp)
  have hwle := writtenCount_le b size
  have hwcap : writtenCount b size ≤ b.numSamples := by omega
  have hEq := processAudioData_eq b xs size d0 d1 hdata hwp
  have hdisj : ∀ j < b.availableSamples, ∀ i < writtenCount b size,
      (b.readPosition + j) % b.numSamples ≠ (b.writePosition + i) % b.numSamples := by
    intro j hj i hi hcontra
    rw [hwpEq, Nat.mod_add_mod, Nat.add_assoc] at hcontra
    have := mod_index_injective (show j < b.numSamples by omega)
      (show b.availableSamples + i < b.numSamples by omega) hcontra
    omega
  refine ⟨?_, ?_, ?_, ?_, ?_, ?_⟩
  · unfold writtenCount
    split
    · rename_i hsz
      subst hsz
      norm_num
    · rfl
  · rw [hEq]
  · rw [hEq]
  · rw [hEq]
  · intro i hi
    rw [hEq]
    unfold sampleAt
    dsimp only
    constructor
    · rw [List.getD_cons_zero]
      exact writeChannel_getD_written d0 b.numSamples b.writePosition _ h0
        (writtenCount b size) hwcap i hi
    · rw [List.getD_cons_succ, List.getD_cons_zero]
      exact writeChannel_getD_written d1 b.numSamples b.writePosition _ h1
        (writtenCount b size) hwcap i hi
  · intro c j hj
    rw [hEq]
    unfold sampleAt
    dsimp only
    rw [hdata]
    cases c with
    | zero =>
        rw [List.getD_cons_zero, List.getD_cons_zero]
        exact writeChannel_getD_outside d0 b.numSamples b.writePosition _
          (writtenCount b size) _ (fun i hi => hdisj j hj i hi)
    | succ c =>
      cases c with
      | zero =>
          rw [List.getD_cons_succ, List.getD_cons_succ,
              List.getD_cons_zero, List.getD_cons_zero]
          exact writeChannel_getD_outside d1 b.numSamples b.writePosition _
            (writtenCount b size) _ (fun i hi => hdisj j hj i hi)
      | succ c => simp

/-- Witness for `claim4_bounded_write` on a concrete buffer: capacity 4,
one unread sample, a two-frame write; the write lands at indices 2 and 3,
and the unread sample at index 1 is untouched. -/
theorem claim4_bounded_write_witness :
    WfBuf testBuffer ∧
    (processAudioData testBuffer [30, 40, 50, 60] 16).availableSamples
        = testBuffer.availableSamples + writtenCount testBuffer 16 ∧
    sampleAt (processAudioData testBuffer [30, 40, 50, 60] 16) 0
        ((testBuffer.writePosition + 0) % testBuffer.numSamples)
      = ([30, 40, 50, 60] : List ℚ).getD (2 * 0) 0 ∧
    sampleAt (processAudioData testBuffer [30, 40, 50, 60] 16) 0
        ((testBuffer.readPosition + 0) % testBuffer.numSamples)
      = sampleAt testBuffer 0 ((testBuffer.readPosition + 0) % testBuffer.numSamples) := by
  have hwf : WfBuf testBuffer := by decide
  have h := claim4_bounded_write testBuffer [30, 40, 50, 60] 16 hwf
  exact ⟨hwf, h.2.1, (h.2.2.2.2.1 0 (by decide)).1, h.2.2.2.2.2 0 0 (by decide)⟩

/-- Witness for `claim10_seekToTime_no_validation` at the negative time
`t = -3` (outside any media's range): the engine receives `-3000` ms. -/
theorem claim10_seekToTime_no_validation_witness :
    openPlayer.mediaPlayerOpen = true ∧
    openPlayer.currentMediaOpen = true ∧
    (seekToTime openPlayer (-3)).returned = true ∧
    (seekToTime openPlayer (-3)).engineSetTimeMs = some (ratTrunc ((-3) * 1000)) :=
  ⟨rfl, rfl, (claim10_seekToTime_no_validation openPlayer (-3) rfl rfl).1,
   (claim10_seekToTime_no_validation openPlayer (-3) rfl rfl).2.2.2⟩

end JuceLibVLC
